import Mathlib

/-!
Verification of the traffic-control action layer of libnl
(`lib/route/act.c`): a bounded, ordered, singly linked chain of
reference-counted action entities, an attribute codec (build and parse of
the nested netlink attribute form, including the statistics block), the
add/change/delete request builders and the cache-adapter message parser.

The chain of `struct rtnl_act` nodes is modelled as an ordered sequence
(`List`), the representation the specification itself recommends for the
raw next-pointer list: the head pointer `*head` is the whole list, `NULL`
is `[]`, and `p->a_next` is the tail.  Pointer identity is modelled by
letting the list operations be polymorphic in the element type: for the
list-surgery theorems the elements are bare addresses (`Nat`), so that
equality of elements is exactly pointer identity and structurally equal
entities at different addresses stay distinguishable.

Fallible C functions returning `0` or `-NLE_*` are modelled with
`Except NlErr`; an `.error` return means the function performed no
caller-visible mutation, matching the source's early-return discipline
(the `_nl_auto_*` cleanup attributes release every locally built object
on those paths).
-/

namespace LibnlAct

/-- Maximum number of actions in one chain; models `TCA_ACT_MAX_PRIO` (32)
from the kernel packet-classifier header. -/
def TCA_ACT_MAX_PRIORITY : Nat := 32

/-- Size of the fixed kind-name buffer `char kind[TCKINDSIZ]` (tc-api.h). -/
def TCKINDSIZ : Nat := 32

/-- Attribute ids inside one action block (`enum` in linux/pkt_cls.h). -/
def TCA_ACT_KIND : Nat := 1

/-- Attribute id of the raw options blob inside one action block. -/
def TCA_ACT_OPTIONS : Nat := 2

/-- Attribute id of the statistics block inside one action block. -/
def TCA_ACT_STATS : Nat := 4

/-- Highest attribute id recognised inside one action block
(`TCA_ACT_MAX`; the shipped header also knows INDEX and COOKIE ids). -/
def TCA_ACT_MAX : Nat := 6

/-- Statistics sub-attribute ids (linux/gen_stats.h). -/
def TCA_STATS_BASIC : Nat := 1

/-- Statistics sub-attribute id of the 32-bit rate estimate. -/
def TCA_STATS_RATE_EST : Nat := 2

/-- Statistics sub-attribute id of the queue counters. -/
def TCA_STATS_QUEUE : Nat := 3

/-- Statistics sub-attribute id of the 64-bit rate estimate. -/
def TCA_STATS_RATE_EST64 : Nat := 5

/-- Highest statistics sub-attribute id (`TCA_STATS_MAX`). -/
def TCA_STATS_MAX : Nat := 5

/-- Top-level attribute id of the action table inside a `tcamsg` message
(`TCA_ACT_TAB`), and the highest recognised top-level id (`TCAA_MAX`). -/
def TCA_ACT_TAB : Nat := 1

/-- Highest recognised top-level attribute id in a `tcamsg` message. -/
def TCAA_MAX : Nat := 1

/-- Message type constants of rtnetlink. -/
def RTM_NEWACTION : Nat := 48

/-- Message type requesting deletion of actions. -/
def RTM_DELACTION : Nat := 49

/-- Netlink request flag `NLM_F_REPLACE`. -/
def NLM_F_REPLACE : Nat := 256

/-- Unspecified address family (`AF_UNSPEC`). -/
def AF_UNSPEC : Nat := 0

/-- Error kinds of the `-NLE_*` codes returned by the modelled functions
(netlink/errno.h).  `invalidAttrSize` is the policy violation a too-short
statistics sub-attribute produces inside attribute validation. -/
inductive NlErr where
  | nomem
  | range
  | msgsize
  | objNotfound
  | missingAttr
  | invalidAttrSize
  | failure
deriving DecidableEq, Repr

/-- Numeric `-NLE_*` code of an error kind, as returned by the C
functions (NLE_NOMEM 5, NLE_INVAL 7, NLE_RANGE 8, NLE_MSGSIZE 9,
NLE_OBJ_NOTFOUND 12, NLE_MISSING_ATTR 14, NLE_FAILURE 1; the attribute
size violation surfaces as NLE_RANGE in libnl). -/
def nleCode : NlErr → Int
  | .nomem => -5
  | .range => -8
  | .msgsize => -9
  | .objNotfound => -12
  | .missingAttr => -14
  | .invalidAttrSize => -8
  | .failure => -1

/-- Counters of `struct gnet_stats_basic` (bytes, packets). -/
structure GnetStatsBasic where
  bytes : Nat
  packets : Nat
deriving DecidableEq, Repr

/-- Counters of the legacy 32-bit `struct gnet_stats_rate_est`. -/
structure GnetStatsRateEst where
  bps : Nat
  pps : Nat
deriving DecidableEq, Repr

/-- Counters of the 64-bit `struct gnet_stats_rate_est64`. -/
structure GnetStatsRateEst64 where
  bps : Nat
  pps : Nat
deriving DecidableEq, Repr

/-- Counters of `struct gnet_stats_queue`. -/
structure GnetStatsQueue where
  qlen : Nat
  backlog : Nat
  drops : Nat
  requeues : Nat
  overlimits : Nat
deriving DecidableEq, Repr

/-- One netlink attribute: a type id together with its payload.  The wire
is a byte stream; this model keeps the payload structured: a
NUL-terminated string, an opaque byte blob, a nested attribute stream, or
one of the fixed-size statistics structs.  A typed statistics payload
stands for a byte payload at least as long as the corresponding struct
(the `minlen` policy of the source). -/
inductive NlAttr where
  | str (atype : Nat) (s : String)
  | blob (atype : Nat) (bytes : List Nat)
  | nest (atype : Nat) (children : List NlAttr)
  | basic (atype : Nat) (v : GnetStatsBasic)
  | rateEst (atype : Nat) (v : GnetStatsRateEst)
  | rateEst64 (atype : Nat) (v : GnetStatsRateEst64)
  | queue (atype : Nat) (v : GnetStatsQueue)
deriving Repr

/-- Type id of an attribute (`nla_type`). -/
def NlAttr.atype : NlAttr → Nat
  | .str t _ => t
  | .blob t _ => t
  | .nest t _ => t
  | .basic t _ => t
  | .rateEst t _ => t
  | .rateEst64 t _ => t
  | .queue t _ => t

/-- Payload of a nested attribute viewed as an attribute stream
(`nla_data` handed to a recursive `nla_parse`); payloads that are not
attribute streams contribute no sub-attributes in this model. -/
def NlAttr.children : NlAttr → List NlAttr
  | .nest _ cs => cs
  | _ => []

/-- String payload of an attribute (the bytes `nla_strlcpy` copies). -/
def NlAttr.strData : NlAttr → String
  | .str _ s => s
  | _ => ""

/-- Decoded statistics table `tc_stats[]` of one entity, indexed by the
closed statistic kinds RTNL_TC_{BYTES, PACKETS, RATE_BPS, RATE_PPS,
DROPS, OVERLIMITS} used by the parser. -/
structure TcStats where
  bytes : Nat
  packets : Nat
  rate_bps : Nat
  rate_pps : Nat
  drops : Nat
  overlimits : Nat
deriving DecidableEq, Repr

/-- One action entity, the caller-visible state of a `struct rtnl_act`
(through its embedded `rtnl_tc`): the kind tag (`tc_kind` together with
its `TCA_ATTR_KIND` mask bit, `none` when unset), the captured raw
options attribute (`tc_opts`/`TCA_ATTR_OPTS`), the kind-specific decoded
payload (`tc_data`), decoded statistics, and the header-derived fields
`tc_family`, `ce_msgtype`, `tc_ifindex` and resolved link.  The chain
link `a_next` is represented by the position of the entity inside its
containing list, not by a field. -/
structure ActData where
  kind : Option String
  opts : Option NlAttr
  payload : Option (List Nat)
  stats : TcStats
  family : Nat
  msgtype : Nat
  ifindex : Nat
  link : Option Nat
deriving Repr

/-- Fresh blank entity as produced by `rtnl_act_alloc` (the object
framework zero-initialises the allocation). -/
def rtnl_act_alloc : ActData :=
  { kind := none, opts := none, payload := none
    stats := { bytes := 0, packets := 0, rate_bps := 0, rate_pps := 0
               drops := 0, overlimits := 0 }
    family := 0, msgtype := 0, ifindex := 0, link := none }

/-- Tail-walk counter of `rtnl_act_append`: `count` starts at 1 and is
incremented once per traversed `a_next` link
(`while (p_act->a_next) { ++count; p_act = p_act->a_next; }`). -/
def tailWalkCount {α : Type} : List α → Nat
  | [] => 1
  | [_] => 1
  | _ :: b :: rest => 1 + tailWalkCount (b :: rest)

/-- Model of `rtnl_act_append`: a `NULL` head takes the new entity
directly; otherwise the chain is walked to its tail counting links, the
count is checked against the maximum priority count, and the new entity
is linked at the tail.  `.error .range` models `return -NLE_RANGE`
(chain untouched); `.ok` returns the chain `*head` denotes afterwards. -/
def rtnl_act_append {α : Type} (head : List α) (nw : α) : Except NlErr (List α) :=
  match head with
  | [] => .ok [nw]
  | a :: rest =>
      if tailWalkCount (a :: rest) > TCA_ACT_MAX_PRIORITY then
        .error .range
      else
        .ok ((a :: rest) ++ [nw])

/-- Model of `rtnl_act_remove`: the indirect-pointer walk finds the first
node equal to `act` by identity (`a == act` compares addresses; the
element type is instantiated with bare addresses in the theorems about
this function), splices it out (`*ap = a->a_next`) and severs its own
link (`a->a_next = NULL`).  On success the result carries the remaining
chain and the chain now headed by the removed node, which is the
singleton `[act]` because its next pointer was cleared; `.error
.objNotfound` models `return -NLE_OBJ_NOTFOUND` with no write at all. -/
def rtnl_act_remove {α : Type} [DecidableEq α] (head : List α) (act : α) :
    Except NlErr (List α × List α) :=
  match head with
  | [] => .error .objNotfound
  | a :: rest =>
      if a = act then
        .ok (rest, [act])
      else
        (rtnl_act_remove rest act).map (fun r => (a :: r.1, r.2))

/-- Release order of the `rtnl_act_put_all` walk: `curr` starts at
`*head`, each iteration releases one reference on `curr` and advances to
the saved `next`. -/
def putAllReleases {α : Type} : List α → List α
  | [] => []
  | curr :: next => curr :: putAllReleases next

/-- Model of `rtnl_act_put_all`: returns the sequence of nodes on which
one reference was released, in walk order, together with the final value
of `*head` (the function ends with `*head = NULL`). -/
def rtnl_act_put_all {α : Type} (head : List α) : List α × List α :=
  (putAllReleases head, [])

/-- Model of `rtnl_act_next`: `NULL` in, `NULL` out; otherwise the chain
headed by `act->a_next`, which in the sequence representation is the
tail of the chain headed by `act`. -/
def rtnl_act_next {α : Type} (act : List α) : List α :=
  match act with
  | [] => []
  | _ :: next => next

/-- Capability set of one registered kind (`struct rtnl_tc_ops`): an
optional structured fill writing the children of an OPTIONS nest, an
optional raw fill writing attributes directly into the action nest, and
an optional parser decoding the kind-specific payload
(`to_msg_fill`, `to_msg_fill_raw`, `to_msg_parser`). -/
structure KindOps where
  toMsgFill : Option (ActData → Except NlErr (List NlAttr))
  toMsgFillRaw : Option (ActData → Except NlErr (List NlAttr))
  toMsgParse : Option (ActData → Except NlErr (List Nat))

/-- Modelled from the spec: the Kind Dispatch Registry of §4.6 (the
`rtnl_tc_register`/`rtnl_tc_get_ops` machinery of lib/route/tc.c, which
is not part of src/) is a mapping from kind-name string to an optional
capability set, read-only during codec operation. -/
abbrev Registry := String → Option KindOps

/-- Registry with no registered kind codecs. -/
def emptyReg : Registry := fun _ => none

/-- Modelled from the spec: `rtnl_tc_get_ops` looks the entity's kind
name up in the registry; an entity without a kind has no ops. -/
def rtnl_tc_get_ops (reg : Registry) (act : ActData) : Option KindOps :=
  act.kind.bind reg

/-- Modelled from the spec: `nla_strlcpy` (lib/attr.c, outside src/)
copies the attribute's string payload into a buffer of `dstsize` bytes,
truncating to `dstsize - 1` characters plus the terminator. -/
def nla_strlcpy (dstsize : Nat) (nla : NlAttr) : String :=
  ⟨nla.strData.data.take (dstsize - 1)⟩

/-- Modelled from the spec: `rtnl_tc_set_kind` (lib/route/tc.c, outside
src/) stores the kind string into the fixed `TCKINDSIZ` buffer, bounding
it to the fixed kind-name length, and marks the kind attribute set. -/
def rtnl_tc_set_kind (act : ActData) (k : String) : ActData :=
  { act with kind := some ⟨k.data.take (TCKINDSIZ - 1)⟩ }

/-- Modelled from the spec: `nla_parse` (lib/attr.c, outside src/) walks
an attribute stream and files each attribute into a table indexed by its
type id; ids above `maxtype` are ignored, ids repeat last-wins, position
indices are 1-based (§6, gaps allowed), and an attribute that violates
the supplied policy (shorter than the minimum size for its id) aborts
with the invalid-size error. -/
def nlaParseGo (maxtype : Nat) (policy : Nat → NlAttr → Bool) :
    List NlAttr → List (Option NlAttr) → Except NlErr (List (Option NlAttr))
  | [], tb => .ok tb
  | a :: rest, tb =>
      if a.atype = 0 ∨ a.atype > maxtype then
        nlaParseGo maxtype policy rest tb
      else if policy a.atype a then
        nlaParseGo maxtype policy rest (tb.set a.atype (some a))
      else
        .error .invalidAttrSize

/-- Table-building entry point of the modelled `nla_parse`: the table
starts out cleared (`memset`) with `maxtype + 1` slots. -/
def nlaParse (maxtype : Nat) (policy : Nat → NlAttr → Bool) (attrs : List NlAttr) :
    Except NlErr (List (Option NlAttr)) :=
  nlaParseGo maxtype policy attrs (List.replicate (maxtype + 1) none)

/-- Policy passed for calls with no validation (`NULL` policy). -/
def noPol : Nat → NlAttr → Bool := fun _ _ => true

/-- Model of `tc_act_stats_policy`: each recognised statistics
sub-attribute must be at least as long as its struct (`minlen`); in this
structured model a payload long enough to contain the struct is the
corresponding typed payload, so the check requires exactly that shape. -/
def tc_act_stats_policy (t : Nat) (a : NlAttr) : Bool :=
  if t = TCA_STATS_BASIC then
    match a with | .basic _ _ => true | _ => false
  else if t = TCA_STATS_RATE_EST then
    match a with | .rateEst _ _ => true | _ => false
  else if t = TCA_STATS_RATE_EST64 then
    match a with | .rateEst64 _ _ => true | _ => false
  else if t = TCA_STATS_QUEUE then
    match a with | .queue _ _ => true | _ => false
  else
    true

/-- Typed view of a basic-counter payload (`memcpy` from `nla_data`). -/
def NlAttr.basicData : NlAttr → GnetStatsBasic
  | .basic _ v => v
  | _ => { bytes := 0, packets := 0 }

/-- Typed view of a 32-bit rate-estimate payload. -/
def NlAttr.rateEstData : NlAttr → GnetStatsRateEst
  | .rateEst _ v => v
  | _ => { bps := 0, pps := 0 }

/-- Typed view of a 64-bit rate-estimate payload. -/
def NlAttr.rateEst64Data : NlAttr → GnetStatsRateEst64
  | .rateEst64 _ v => v
  | _ => { bps := 0, pps := 0 }

/-- Typed view of a queue-counter payload. -/
def NlAttr.queueData : NlAttr → GnetStatsQueue
  | .queue _ v => v
  | _ => { qlen := 0, backlog := 0, drops := 0, requeues := 0, overlimits := 0 }

/-- Model of `rtnl_act_fill_one`: open a nest tagged with the 1-based
`order`, emit the kind string when a kind is set, then either the
codec's structured fill inside an OPTIONS nest, or its raw fill
directly, or nothing; close the nest.  Codec failures propagate. -/
def rtnl_act_fill_one (reg : Registry) (act : ActData) (order : Nat) :
    Except NlErr NlAttr := do
  let kindAttrs : List NlAttr :=
    match act.kind with
    | some k => [NlAttr.str TCA_ACT_KIND k]
    | none => []
  let opsAttrs : List NlAttr ←
    match rtnl_tc_get_ops reg act with
    | some ops =>
        match ops.toMsgFill with
        | some fillFn => do
            let children ← fillFn act
            pure [NlAttr.nest TCA_ACT_OPTIONS children]
        | none =>
            match ops.toMsgFillRaw with
            | some fillRawFn => fillRawFn act
            | none => pure []
    | none => pure []
  pure (NlAttr.nest order (kindAttrs ++ opsAttrs))

/-- Loop of `rtnl_act_fill`: `order` starts at 0 and is pre-incremented
for every entity of the chain, so entities are serialised under 1-based
position indices in chain order. -/
def fillLoop (reg : Registry) : List ActData → Nat → Except NlErr (List NlAttr)
  | [], _ => .ok []
  | p_act :: rest, order => do
      let one ← rtnl_act_fill_one reg p_act (order + 1)
      let more ← fillLoop reg rest (order + 1)
      pure (one :: more)

/-- Model of `rtnl_act_fill`: the whole chain is wrapped in one outer
nest tagged with the caller-supplied attribute id. -/
def rtnl_act_fill (reg : Registry) (attrtype : Nat) (act : List ActData) :
    Except NlErr NlAttr := do
  let children ← fillLoop reg act 0
  pure (NlAttr.nest attrtype children)

/-- Model of the loop body of `rtnl_act_parse` for one present position:
allocate a fresh entity, parse the block's attribute set, require KIND
(else `-NLE_MISSING_ATTR`), copy the bounded kind string, capture a raw
OPTIONS attribute if present, decode an optional STATS nest under
`tc_act_stats_policy` (BASIC into bytes/packets, the 64-bit rate
estimate preferred over the 32-bit one, QUEUE into drops/overlimits),
then run the registered kind parser if any. -/
def actParseOne (reg : Registry) (blk : NlAttr) : Except NlErr ActData := do
  let act := rtnl_act_alloc
  let tb2 ← nlaParse TCA_ACT_MAX noPol blk.children
  match tb2.getD TCA_ACT_KIND none with
  | none => .error .missingAttr
  | some kindAttr => do
      let kind := nla_strlcpy TCKINDSIZ kindAttr
      let act := rtnl_tc_set_kind act kind
      let act :=
        match tb2.getD TCA_ACT_OPTIONS none with
        | some o => { act with opts := some o }
        | none => act
      let act ←
        match tb2.getD TCA_ACT_STATS none with
        | none => pure act
        | some stAttr => do
            let tb3 ← nlaParse TCA_STATS_MAX tc_act_stats_policy stAttr.children
            let act :=
              match tb3.getD TCA_STATS_BASIC none with
              | some bsAttr =>
                  { act with stats :=
                      { act.stats with
                          bytes := bsAttr.basicData.bytes
                          packets := bsAttr.basicData.packets } }
              | none => act
            let act :=
              match tb3.getD TCA_STATS_RATE_EST64 none with
              | some reAttr =>
                  { act with stats :=
                      { act.stats with
                          rate_bps := reAttr.rateEst64Data.bps
                          rate_pps := reAttr.rateEst64Data.pps } }
              | none =>
                  match tb3.getD TCA_STATS_RATE_EST none with
                  | some reAttr =>
                      { act with stats :=
                          { act.stats with
                              rate_bps := reAttr.rateEstData.bps
                              rate_pps := reAttr.rateEstData.pps } }
                  | none => act
            let act :=
              match tb3.getD TCA_STATS_QUEUE none with
              | some qAttr =>
                  { act with stats :=
                      { act.stats with
                          drops := qAttr.queueData.drops
                          overlimits := qAttr.queueData.overlimits } }
              | none => act
            pure act
      match rtnl_tc_get_ops reg act with
      | some ops =>
          match ops.toMsgParse with
          | some parseFn => do
              let d ← parseFn act
              pure { act with payload := some d }
          | none => pure act
      | none => pure act

/-- Position scan of `rtnl_act_parse`
(`for (i = 0; i < TCA_ACT_MAX_PRIO; i++)`): absent indices are skipped,
each present block is decoded and appended to the working chain
`tmp_head`; a failure of decode or append aborts the whole parse (the
auto-cleanup attributes release the working chain and the current
entity on that path, so nothing built so far survives). -/
def actParseLoop (reg : Registry) (nla : List (Option NlAttr)) :
    List Nat → List ActData → Except NlErr (List ActData)
  | [], tmp_head => .ok tmp_head
  | i :: rest, tmp_head =>
      match nla.getD i none with
      | none => actParseLoop reg nla rest tmp_head
      | some blk => do
          let act ← actParseOne reg blk
          let tmp2 ← rtnl_act_append tmp_head act
          actParseLoop reg nla rest tmp2

/-- Model of `rtnl_act_parse`: split the container's payload into up to
`TCA_ACT_MAX_PRIO` positional sub-attributes and scan the position
table; on success the finished chain is stolen into the caller's
`*head`, on error `*head` is never written. -/
def rtnl_act_parse (reg : Registry) (tb : NlAttr) : Except NlErr (List ActData) := do
  let nla ← nlaParse TCA_ACT_MAX_PRIORITY noPol tb.children
  actParseLoop reg nla (List.range TCA_ACT_MAX_PRIORITY) []

/-- Complete outbound request message: netlink header type and flags,
the fixed `tcamsg` header with its address-family byte, and the
top-level attributes. -/
structure NlOutMsg where
  nlmsgType : Nat
  nlmsgFlags : Nat
  tcaFamily : Nat
  attrs : List NlAttr
deriving Repr

/-- Model of `rtnl_act_msg_build`: allocate a message with the requested
type and flags, append a `tcamsg` header with `AF_UNSPEC`, and serialise
the chain under `TCA_ACT_TAB`; any failure discards the partial message
and propagates the error. -/
def rtnl_act_msg_build (reg : Registry) (act : List ActData) (mtype : Nat)
    (flags : Nat) : Except NlErr NlOutMsg := do
  let tab ← rtnl_act_fill reg TCA_ACT_TAB act
  pure { nlmsgType := mtype, nlmsgFlags := flags, tcaFamily := AF_UNSPEC
         attrs := [tab] }

/-- Model of `act_build`, the shared builder of the three requests. -/
def act_build (reg : Registry) (act : List ActData) (mtype : Nat) (flags : Nat) :
    Except NlErr NlOutMsg :=
  rtnl_act_msg_build reg act mtype flags

/-- Model of `rtnl_act_build_add_request`. -/
def rtnl_act_build_add_request (reg : Registry) (act : List ActData) (flags : Nat) :
    Except NlErr NlOutMsg :=
  act_build reg act RTM_NEWACTION flags

/-- Model of `rtnl_act_build_change_request`: identical to add except
that `NLM_F_REPLACE` is or-ed into the caller's flags. -/
def rtnl_act_build_change_request (reg : Registry) (act : List ActData) (flags : Nat) :
    Except NlErr NlOutMsg :=
  act_build reg act RTM_NEWACTION (NLM_F_REPLACE ||| flags)

/-- Model of `rtnl_act_build_delete_request`: the caller's flags are
passed through unmodified. -/
def rtnl_act_build_delete_request (reg : Registry) (act : List ActData) (flags : Nat) :
    Except NlErr NlOutMsg :=
  act_build reg act RTM_DELACTION flags

/-- Inbound protocol message as seen by the cache adapter: the netlink
header's message type, the `tcamsg` header's family byte, and the
attributes following the fixed header. -/
structure InboundMsg where
  nlmsgType : Nat
  tcaFamily : Nat
  attrs : List NlAttr
deriving Repr

/-- Link-cache collaborator: resolve an interface index to an optional
link handle (spec §6, `lookup(cache, ifindex) -> optional link`). -/
abbrev LinkCache := Nat → Option Nat

/-- Modelled from the spec: `nlmsg_parse` (lib/msg.c, outside src/)
files the attributes that follow the fixed-size header into a table
indexed by attribute id. -/
def nlmsg_parse (maxtype : Nat) (msg : InboundMsg) : Except NlErr (List (Option NlAttr)) :=
  nlaParse maxtype noPol msg.attrs

/-- Model of `rtnl_act_msg_parse`.  The C function receives the caller's
pre-allocated entity through `struct rtnl_act **act`, stamps the message
type and family onto that entity, requires `TCA_ACT_TAB`, and then calls
`rtnl_act_parse(act, ...)`, which on success overwrites `*act` with the
freshly parsed chain; the link-cache enrichment that follows still acts
on the local `tc` alias of the original, now orphaned, entity.  The
result therefore carries both the final state of that original entity
(first component, unreachable through `*act` after return) and the chain
`*act` actually points to (second component). -/
def rtnl_act_msg_parse (reg : Registry) (linkCache : Option LinkCache)
    (n : InboundMsg) (act : ActData) : Except NlErr (ActData × List ActData) := do
  let tc := { act with msgtype := n.nlmsgType }
  let tb ← nlmsg_parse TCAA_MAX n
  let tc := { tc with family := n.tcaFamily }
  match tb.getD TCA_ACT_TAB none with
  | none => .error .missingAttr
  | some tab => do
      let chain ← rtnl_act_parse reg tab
      let tc :=
        match linkCache with
        | some lookup =>
            match lookup tc.ifindex with
            | some link => { tc with link := some link }
            | none => tc
        | none => tc
      pure (tc, chain)

/-- Callback loop of `act_msg_parser`: `p_act` walks the chain but every
invocation passes `OBJ_CAST(act)` — the head of the chain — to the
callback.  A positive callback return is the internal contract violation
mapped to `-NLE_FAILURE`; a negative one stops the loop and is returned
as is.  The result pairs the final error code with the sequence of
entities actually handed to the callback, in invocation order. -/
def actCbLoop (cb : ActData → Int) (act : ActData) : List ActData → Int × List ActData
  | [] => (0, [])
  | _p_act :: rest =>
      let err := cb act
      if err = 0 then
        let r := actCbLoop cb act rest
        (r.1, act :: r.2)
      else if err > 0 then (nleCode .failure, [act])
      else (err, [act])

/-- Model of `act_msg_parser`, the cache adapter's inbound entry point:
allocate a placeholder entity, parse the message into a chain, then
invoke the per-object callback once per chain node (passing the head
each time, see `actCbLoop`); on parse error no callback runs.  Returns
the adapter's error code and the callback invocation sequence. -/
def act_msg_parser_fn (reg : Registry) (linkCache : Option LinkCache)
    (nlh : InboundMsg) (cb : ActData → Int) : Int × List ActData :=
  let act := rtnl_act_alloc
  match rtnl_act_msg_parse reg linkCache nlh act with
  | .error e => (nleCode e, [])
  | .ok (_tc, chain) =>
      match chain with
      | [] => (0, [])
      | headAct :: _ => actCbLoop cb headAct chain

/-- Blocks the fill loop emits for a chain of kind-only entities: one
position-indexed nest per entity, holding just the KIND string, at
consecutive 1-based positions starting after `n`. -/
def kindBlocks : List String → Nat → List NlAttr
  | [], _ => []
  | k :: rest, n =>
      NlAttr.nest (n + 1) [NlAttr.str TCA_ACT_KIND k] :: kindBlocks rest (n + 1)

/-- Position table holding the kind blocks of `ks` filed at positions
`n + 1 .. n + ks.length`, over a base table. -/
def setBlocks : List (Option NlAttr) → List String → Nat → List (Option NlAttr)
  | tb, [], _ => tb
  | tb, k :: rest, n =>
      setBlocks (tb.set (n + 1) (some (NlAttr.nest (n + 1) [NlAttr.str TCA_ACT_KIND k])))
        rest (n + 1)

/-- Entity of kind "gact" with nothing else set, as an application or the
parser would construct it. -/
def actGact : ActData := { rtnl_act_alloc with kind := some "gact" }

/-- Entity of kind "mirred" with nothing else set. -/
def actMirred : ActData := { rtnl_act_alloc with kind := some "mirred" }

/-- Inbound message whose action table holds two blocks of different
kinds at positions 1 and 2. -/
def msgTwoActs : InboundMsg :=
  { nlmsgType := RTM_NEWACTION
    tcaFamily := 0
    attrs := [NlAttr.nest TCA_ACT_TAB
      [NlAttr.nest 1 [NlAttr.str TCA_ACT_KIND "gact"],
       NlAttr.nest 2 [NlAttr.str TCA_ACT_KIND "mirred"]]] }

/-- Inbound message with family 2 in its `tcamsg` header and a single
action block at position 1. -/
def msgOneAct : InboundMsg :=
  { nlmsgType := RTM_NEWACTION
    tcaFamily := 2
    attrs := [NlAttr.nest TCA_ACT_TAB [NlAttr.nest 1 [NlAttr.str TCA_ACT_KIND "gact"]]] }

/-- Action block whose statistics nest carries both the 32-bit and the
64-bit rate estimate, with different values. -/
def blkBothRates : NlAttr :=
  NlAttr.nest 1 [NlAttr.str TCA_ACT_KIND "police",
    NlAttr.nest TCA_ACT_STATS
      [NlAttr.rateEst TCA_STATS_RATE_EST { bps := 1, pps := 2 },
       NlAttr.rateEst64 TCA_STATS_RATE_EST64 { bps := 3, pps := 4 }]]

end LibnlAct

namespace LibnlAct

/-- Tail walk of a non-empty chain counts exactly its nodes. -/
theorem tailWalkCount_eq_length {α : Type} (a : α) (l : List α) :
    tailWalkCount (a :: l) = l.length + 1 := by
  induction l generalizing a with
  | nil => rfl
  | cons b rest ih =>
      rw [tailWalkCount, ih b]
      simp [List.length_cons]
      omega

/-- Appending to a chain of at most `TCA_ACT_MAX_PRIO` nodes succeeds and
links the new entity at the tail. -/
theorem rtnl_act_append_ok {α : Type} (l : List α) (x : α)
    (h : l.length ≤ TCA_ACT_MAX_PRIORITY) :
    rtnl_act_append l x = .ok (l ++ [x]) := by
  cases l with
  | nil => rfl
  | cons a rest =>
      rw [rtnl_act_append, tailWalkCount_eq_length]
      have hle : ¬ rest.length + 1 > TCA_ACT_MAX_PRIORITY := by
        simp only [List.length_cons] at h
        omega
      simp [hle]

/-- Release walk of `rtnl_act_put_all` visits exactly the chain nodes in
order. -/
theorem putAllReleases_eq {α : Type} (l : List α) : putAllReleases l = l := by
  induction l with
  | nil => rfl
  | cons a rest ih => simp [putAllReleases, ih]

/-- Setting one slot leaves every other slot's default read unchanged. -/
theorem list_getD_set_ne {α : Type} (l : List α) (i j : Nat) (v d : α)
    (hij : i ≠ j) : (l.set i v).getD j d = l.getD j d := by
  induction l generalizing i j with
  | nil => rfl
  | cons a rest ih =>
      cases i with
      | zero =>
          cases j with
          | zero => exact absurd rfl hij
          | succ m => rfl
      | succ p =>
          cases j with
          | zero => rfl
          | succ m =>
              simp only [List.set, List.getD_cons_succ]
              exact ih p m (fun h => hij (by rw [h]))

/-- Setting a slot inside the table makes its default read the value. -/
theorem list_getD_set_self {α : Type} (l : List α) (i : Nat) (v d : α)
    (hi : i < l.length) : (l.set i v).getD i d = v := by
  induction l generalizing i with
  | nil => cases hi
  | cons a rest ih =>
      cases i with
      | zero => rfl
      | succ p =>
          simp only [List.set, List.getD_cons_succ]
          exact ih p (by simpa using hi)

/-- Every slot of the cleared table reads as absent. -/
theorem getD_replicate_none {α : Type} (n i : Nat) :
    (List.replicate n (none : Option α)).getD i none = none := by
  induction n generalizing i with
  | zero => rfl
  | succ m ih =>
      cases i with
      | zero => rfl
      | succ p =>
          rw [List.replicate, List.getD_cons_succ]
          exact ih p

/-- Fill loop on a chain of entities that all have a kind and no
registered codec: it emits exactly the kind blocks, in order, under
consecutive 1-based positions. -/
theorem fillLoop_kind_only (reg : Registry) (chain : List ActData) (n : Nat)
    (hkind : ∀ a ∈ chain, ∃ k, a.kind = some k)
    (hreg : ∀ a ∈ chain, rtnl_tc_get_ops reg a = none) :
    fillLoop reg chain n
      = .ok (kindBlocks (chain.map fun a => a.kind.getD "") n) := by
  induction chain generalizing n with
  | nil => rfl
  | cons a rest ih =>
      obtain ⟨k, hk⟩ := hkind a (List.mem_cons_self a rest)
      have hrega := hreg a (List.mem_cons_self a rest)
      have ihr := ih n.succ (fun x hx => hkind x (List.mem_cons_of_mem a hx))
        (fun x hx => hreg x (List.mem_cons_of_mem a hx))
      simp only [fillLoop, rtnl_act_fill_one, hk, hrega, List.map_cons, kindBlocks,
        bind, Except.bind, pure, Except.pure, ihr]
      simp [hk]

/-- Table built by the modelled `nla_parse` from kind blocks at in-range
positions: each block is filed at its position. -/
theorem nlaParseGo_kindBlocks (ks : List String) (n : Nat)
    (tb : List (Option NlAttr)) (hb : n + ks.length ≤ TCA_ACT_MAX_PRIORITY) :
    nlaParseGo TCA_ACT_MAX_PRIORITY noPol (kindBlocks ks n) tb
      = .ok (setBlocks tb ks n) := by
  induction ks generalizing n tb with
  | nil => rfl
  | cons k rest ih =>
      have hcond : ¬ ((NlAttr.nest (n + 1) [NlAttr.str TCA_ACT_KIND k]).atype = 0 ∨
          (NlAttr.nest (n + 1) [NlAttr.str TCA_ACT_KIND k]).atype > TCA_ACT_MAX_PRIORITY) := by
        simp only [NlAttr.atype, List.length_cons, TCA_ACT_MAX_PRIORITY] at hb ⊢
        omega
      rw [kindBlocks, nlaParseGo, if_neg hcond]
      simp only [noPol, NlAttr.atype]
      rw [if_pos trivial, setBlocks]
      exact ih (n + 1) _ (by simp only [List.length_cons] at hb; omega)

/-- Reading the table built from consecutive kind blocks: positions
`n + 1 .. n + ks.length` hold their blocks, everything else reads from
the base table. -/
theorem setBlocks_getD (ks : List String) (n : Nat) (tb : List (Option NlAttr))
    (hlen : tb.length = TCA_ACT_MAX_PRIORITY + 1)
    (hbound : n + ks.length ≤ TCA_ACT_MAX_PRIORITY) (i : Nat) :
    (setBlocks tb ks n).getD i none
      = if n < i ∧ i ≤ n + ks.length then
          some (NlAttr.nest i [NlAttr.str TCA_ACT_KIND (ks.getD (i - n - 1) "")])
        else tb.getD i none := by
  induction ks generalizing tb n with
  | nil =>
      rw [setBlocks, if_neg (by simp only [List.length_nil, Nat.add_zero]; omega)]
  | cons k rest ih =>
      have hb32 : n + 1 ≤ TCA_ACT_MAX_PRIORITY := by
        simp only [List.length_cons] at hbound
        omega
      rw [setBlocks, ih (n + 1)
        (tb.set (n + 1) (some (NlAttr.nest (n + 1) [NlAttr.str TCA_ACT_KIND k])))
        (by simp [List.length_set, hlen])
        (by simp only [List.length_cons] at hbound; omega)]
      by_cases h1 : n + 1 < i ∧ i ≤ n + 1 + rest.length
      · rw [if_pos h1, if_pos (by simp only [List.length_cons]; omega)]
        have hidx : i - n - 1 = (i - n - 2) + 1 := by omega
        have hidx2 : i - (n + 1) - 1 = i - n - 2 := by omega
        rw [hidx2, hidx, List.getD_cons_succ]
      · rw [if_neg h1]
        by_cases h2 : i = n + 1
        · subst h2
          rw [list_getD_set_self _ _ _ _ (by simp only [hlen]; omega)]
          rw [if_pos (by simp only [List.length_cons]; omega)]
          have : n + 1 - n - 1 = 0 := by omega
          rw [this, List.getD_cons_zero]
        · rw [list_getD_set_ne _ _ _ _ _ (fun h => h2 h.symm)]
          rw [if_neg (by simp only [List.length_cons]; omega)]

/-- Decoding a block that holds only a KIND string, for a registry with
no codec under the copied kind: the result is a fresh entity with just
the bounded kind set. -/
theorem actParseOne_kind_block (reg : Registry) (i : Nat) (k : String)
    (hreg : reg ⟨k.data.take (TCKINDSIZ - 1)⟩ = none) :
    actParseOne reg (NlAttr.nest i [NlAttr.str TCA_ACT_KIND k])
      = .ok { rtnl_act_alloc with kind := some ⟨k.data.take (TCKINDSIZ - 1)⟩ } := by
  unfold actParseOne
  rw [show nlaParse TCA_ACT_MAX noPol (NlAttr.nest i [NlAttr.str TCA_ACT_KIND k]).children
      = .ok [none, some (NlAttr.str TCA_ACT_KIND k), none, none, none, none, none] from rfl]
  simp only [bind, Except.bind]
  rw [show ([none, some (NlAttr.str TCA_ACT_KIND k), none, none, none, none, none] :
      List (Option NlAttr)).getD TCA_ACT_KIND none = some (NlAttr.str TCA_ACT_KIND k) from rfl]
  rw [show ([none, some (NlAttr.str TCA_ACT_KIND k), none, none, none, none, none] :
      List (Option NlAttr)).getD TCA_ACT_OPTIONS none = none from rfl]
  rw [show ([none, some (NlAttr.str TCA_ACT_KIND k), none, none, none, none, none] :
      List (Option NlAttr)).getD TCA_ACT_STATS none = none from rfl]
  simp only [nla_strlcpy, NlAttr.strData, rtnl_tc_set_kind, rtnl_tc_get_ops, Option.bind,
    List.take_take, min_self, hreg, pure, Except.pure]

/-- Position scan against any table whose present entries all decode:
the loop returns the working chain extended by the decoded entities of
the present positions, in scan order. -/
theorem actParseLoop_filterMap (reg : Registry) (tb : List (Option NlAttr))
    (idxs : List Nat) : ∀ (tmp : List ActData),
    tmp.length + idxs.length ≤ TCA_ACT_MAX_PRIORITY + 1 →
    (∀ i ∈ idxs, ∀ blk, tb.getD i none = some blk →
      ∃ a, actParseOne reg blk = .ok a) →
    actParseLoop reg tb idxs tmp
      = .ok (tmp ++ idxs.filterMap
          (fun i => (tb.getD i none).bind (fun blk => (actParseOne reg blk).toOption))) := by
  induction idxs with
  | nil =>
      intro tmp _ _
      simp [actParseLoop]
  | cons i rest ih =>
      intro tmp hlen hparse
      simp only [actParseLoop]
      cases hblk : tb.getD i none with
      | none =>
          rw [ih tmp (by simp only [List.length_cons] at hlen; omega)
            (fun j hj => hparse j (List.mem_cons_of_mem i hj))]
          rw [List.filterMap_cons,
            show ((tb.getD i none).bind fun blk => (actParseOne reg blk).toOption) = none from by
              rw [hblk]
              rfl]
      | some blk =>
          obtain ⟨a, ha⟩ := hparse i (List.mem_cons_self i rest) blk hblk
          have happ : rtnl_act_append tmp a = .ok (tmp ++ [a]) :=
            rtnl_act_append_ok tmp a
              (by simp only [List.length_cons, TCA_ACT_MAX_PRIORITY] at hlen ⊢; omega)
          simp only [ha, happ, bind, Except.bind]
          rw [ih (tmp ++ [a])
            (by simp only [List.length_cons, List.length_append, List.length_nil,
                  List.length_singleton] at hlen ⊢
                omega)
            (fun j hj => hparse j (List.mem_cons_of_mem i hj))]
          rw [List.filterMap_cons,
            show ((tb.getD i none).bind fun blk => (actParseOne reg blk).toOption) = some a from by
              rw [hblk]
              simp [ha, Except.toOption]]
          simp

/-- A kind string already within the fixed buffer bound survives the
bounded copy unchanged. -/
theorem strtake_of_le (k : String) (h : k.data.length ≤ TCKINDSIZ - 1) :
    (⟨k.data.take (TCKINDSIZ - 1)⟩ : String) = k := by
  cases k with
  | mk l => exact congrArg String.mk (List.take_of_length_le h)

/-- Default read of a list at an in-range position is a member. -/
theorem getD_mem_of_lt {α : Type} (l : List α) (d : α) :
    ∀ j, j < l.length → l.getD j d ∈ l := by
  induction l with
  | nil => intro j hj; cases hj
  | cons a rest ih =>
      intro j hj
      cases j with
      | zero => exact List.mem_cons_self a rest
      | succ m =>
          rw [List.getD_cons_succ]
          exact List.mem_cons_of_mem a (ih m (by simpa using hj))

/-- Peeling one element off a drop at an in-range position. -/
theorem drop_eq_getD_cons {α : Type} (l : List α) (d : α) :
    ∀ j, j < l.length → l.drop j = l.getD j d :: l.drop (j + 1) := by
  induction l with
  | nil => intro j hj; cases hj
  | cons a rest ih =>
      intro j hj
      cases j with
      | zero => rfl
      | succ m =>
          rw [List.drop_succ_cons, List.getD_cons_succ,
            ih m (by simpa using hj), List.drop_succ_cons]

/-- Scanning positions `j+1 .. 31` of the table that holds the kind
blocks of `ks` at positions `1 .. ks.length` collects exactly the
decoded entities of the kinds from index `j` on, in order. -/
theorem filterMap_kind_table (reg : Registry) (ks : List String)
    (hbound : ks.length ≤ 31)
    (hreg : ∀ k ∈ ks, reg ⟨k.data.take (TCKINDSIZ - 1)⟩ = none) :
    ∀ (cnt j : Nat), j + cnt = 31 →
      (List.range' (j + 1) cnt).filterMap
        (fun i => ((setBlocks (List.replicate (TCA_ACT_MAX_PRIORITY + 1) none) ks 0).getD
            i none).bind
          (fun blk => (actParseOne reg blk).toOption))
      = (ks.drop j).map
          (fun k => { rtnl_act_alloc with kind := some ⟨k.data.take (TCKINDSIZ - 1)⟩ }) := by
  intro cnt
  induction cnt with
  | zero =>
      intro j hj
      have hge : ks.length ≤ j := by omega
      simp [List.range', List.drop_eq_nil_of_le hge]
  | succ m ih =>
      intro j hj
      rw [List.range'_succ, List.filterMap_cons]
      have hT := setBlocks_getD ks 0 (List.replicate (TCA_ACT_MAX_PRIORITY + 1) none)
        (by simp) (by simp only [Nat.zero_add, TCA_ACT_MAX_PRIORITY]; omega) (j + 1)
      by_cases hjk : j < ks.length
      · have hcond : 0 < j + 1 ∧ j + 1 ≤ 0 + ks.length := by omega
        rw [if_pos hcond] at hT
        have hidx : j + 1 - 0 - 1 = j := by omega
        rw [hidx] at hT
        have hmem : ks.getD j "" ∈ ks := getD_mem_of_lt ks "" j hjk
        have hone := actParseOne_kind_block reg (j + 1) (ks.getD j "")
          (hreg _ hmem)
        rw [show (((setBlocks (List.replicate (TCA_ACT_MAX_PRIORITY + 1) none) ks 0).getD
              (j + 1) none).bind
            (fun blk => (actParseOne reg blk).toOption))
            = some { rtnl_act_alloc with
                kind := some ⟨(ks.getD j "").data.take (TCKINDSIZ - 1)⟩ } from by
          rw [hT]
          rw [show ((some (NlAttr.nest (j + 1) [NlAttr.str TCA_ACT_KIND (ks.getD j "")])).bind
              (fun blk => (actParseOne reg blk).toOption))
              = (actParseOne reg
                  (NlAttr.nest (j + 1) [NlAttr.str TCA_ACT_KIND (ks.getD j "")])).toOption
            from rfl]
          rw [hone]
          rfl]
        rw [ih (j + 1) (by omega), drop_eq_getD_cons ks "" j hjk, List.map_cons]
      · have hcond : ¬ (0 < j + 1 ∧ j + 1 ≤ 0 + ks.length) := by omega
        rw [if_neg hcond, getD_replicate_none] at hT
        rw [show (((setBlocks (List.replicate (TCA_ACT_MAX_PRIORITY + 1) none) ks 0).getD
              (j + 1) none).bind
            (fun blk => (actParseOne reg blk).toOption)) = none from by
          rw [hT]
          rfl]
        rw [ih (j + 1) (by omega),
          List.drop_eq_nil_of_le (show ks.length ≤ j from by omega),
          List.drop_eq_nil_of_le (show ks.length ≤ j + 1 from by omega)]

/-- Round trip of build followed by parse for chains the scan loop fully
covers: at most 31 entities, every entity carrying a kind short enough
for the fixed buffer, no captured raw options, and no registered codec
for any kind involved (the generic KIND-only handling).  Kinds, options
and positional order are reproduced exactly; together with the 32-entity
evaluation this brackets the round-trip property at length 31. -/
theorem roundtrip_le31 (reg : Registry) (chain : List ActData)
    (hlen : chain.length ≤ 31)
    (hkind : ∀ a ∈ chain, ∃ k, a.kind = some k ∧ k.data.length ≤ TCKINDSIZ - 1)
    (hopts : ∀ a ∈ chain, a.opts = none)
    (hreg : ∀ a ∈ chain, rtnl_tc_get_ops reg a = none) :
    ((rtnl_act_fill reg TCA_ACT_TAB chain).bind (rtnl_act_parse reg)).map
        (List.map fun a => (a.kind, a.opts))
      = .ok (chain.map fun a => (a.kind, a.opts)) := by
  have hkind0 : ∀ a ∈ chain, ∃ k, a.kind = some k :=
    fun a ha => ⟨(hkind a ha).choose, (hkind a ha).choose_spec.1⟩
  have hks_len : (chain.map fun a => a.kind.getD "").length ≤ 31 := by
    simpa using hlen
  have hfill : rtnl_act_fill reg TCA_ACT_TAB chain
      = .ok (NlAttr.nest TCA_ACT_TAB (kindBlocks (chain.map fun a => a.kind.getD "") 0)) := by
    unfold rtnl_act_fill
    rw [fillLoop_kind_only reg chain 0 hkind0 hreg]
    rfl
  have hregs : ∀ k ∈ (chain.map fun a => a.kind.getD ""),
      reg ⟨k.data.take (TCKINDSIZ - 1)⟩ = none := by
    intro k hk
    obtain ⟨a, ha, hak⟩ := List.mem_map.mp hk
    obtain ⟨k0, hk0, hk0len⟩ := hkind a ha
    have hkk : k = k0 := by rw [← hak, hk0]; rfl
    subst hkk
    rw [strtake_of_le k hk0len]
    have hga := hreg a ha
    rw [rtnl_tc_get_ops, hk0] at hga
    exact hga
  have hT : nlaParse TCA_ACT_MAX_PRIORITY noPol
      (NlAttr.nest TCA_ACT_TAB (kindBlocks (chain.map fun a => a.kind.getD "") 0)).children
      = .ok (setBlocks (List.replicate (TCA_ACT_MAX_PRIORITY + 1) none)
          (chain.map fun a => a.kind.getD "") 0) := by
    rw [show (NlAttr.nest TCA_ACT_TAB
        (kindBlocks (chain.map fun a => a.kind.getD "") 0)).children
        = kindBlocks (chain.map fun a => a.kind.getD "") 0 from rfl]
    unfold nlaParse
    exact nlaParseGo_kindBlocks _ 0 _
      (by simp only [Nat.zero_add, TCA_ACT_MAX_PRIORITY]; omega)
  have hscan : ∀ i ∈ List.range TCA_ACT_MAX_PRIORITY, ∀ blk,
      (setBlocks (List.replicate (TCA_ACT_MAX_PRIORITY + 1) none)
        (chain.map fun a => a.kind.getD "") 0).getD i none = some blk →
      ∃ a, actParseOne reg blk = .ok a := by
    intro i _ blk hblk
    rw [setBlocks_getD _ 0 _ (by simp)
      (by simp only [Nat.zero_add, TCA_ACT_MAX_PRIORITY]; omega) i] at hblk
    by_cases hc : 0 < i ∧ i ≤ 0 + (chain.map fun a => a.kind.getD "").length
    · rw [if_pos hc] at hblk
      injection hblk with hblk
      subst hblk
      refine ⟨_, actParseOne_kind_block reg i _ (hregs _ ?_)⟩
      exact getD_mem_of_lt _ "" (i - 0 - 1) (by omega)
    · rw [if_neg hc, getD_replicate_none] at hblk
      cases hblk
  have hparse : rtnl_act_parse reg
      (NlAttr.nest TCA_ACT_TAB (kindBlocks (chain.map fun a => a.kind.getD "") 0))
      = .ok ((chain.map fun a => a.kind.getD "").map
          (fun k => { rtnl_act_alloc with kind := some ⟨k.data.take (TCKINDSIZ - 1)⟩ })) := by
    unfold rtnl_act_parse
    rw [hT]
    simp only [bind, Except.bind]
    rw [actParseLoop_filterMap reg _ (List.range TCA_ACT_MAX_PRIORITY) []
      (by simp [TCA_ACT_MAX_PRIORITY]) hscan]
    rw [show List.range TCA_ACT_MAX_PRIORITY = 0 :: List.range' 1 31 from by
      rw [List.range_eq_range']
      rfl]
    rw [List.filterMap_cons]
    rw [show (((setBlocks (List.replicate (TCA_ACT_MAX_PRIORITY + 1) none)
          (chain.map fun a => a.kind.getD "") 0).getD 0 none).bind
        (fun blk => (actParseOne reg blk).toOption)) = none from by
      rw [setBlocks_getD _ 0 _ (by simp)
        (by simp only [Nat.zero_add, TCA_ACT_MAX_PRIORITY]; omega) 0]
      rw [if_neg (by omega), getD_replicate_none]
      rfl]
    rw [filterMap_kind_table reg _ hks_len hregs 31 0 rfl]
    rw [List.drop_zero, List.nil_append]
  rw [hfill]
  rw [show ((Except.ok (NlAttr.nest TCA_ACT_TAB
      (kindBlocks (chain.map fun a => a.kind.getD "") 0)) :
        Except NlErr NlAttr).bind (rtnl_act_parse reg))
      = rtnl_act_parse reg (NlAttr.nest TCA_ACT_TAB
          (kindBlocks (chain.map fun a => a.kind.getD "") 0)) from rfl]
  rw [hparse]
  rw [show (Except.ok ((chain.map fun a => a.kind.getD "").map
      (fun k => { rtnl_act_alloc with
          kind := some ⟨k.data.take (TCKINDSIZ - 1)⟩ })) :
        Except NlErr (List ActData)).map (List.map fun a => (a.kind, a.opts))
      = .ok (((chain.map fun a => a.kind.getD "").map
          (fun k => ({ rtnl_act_alloc with
              kind := some ⟨k.data.take (TCKINDSIZ - 1)⟩ } : ActData))).map
            (fun a => (a.kind, a.opts))) from rfl]
  rw [List.map_map, List.map_map]
  refine congrArg Except.ok (List.map_congr_left ?_)
  intro a ha
  obtain ⟨k, hk, hklen⟩ := hkind a ha
  simp only [Function.comp, hk, Option.getD_some, strtake_of_le k hklen, hopts a ha]
  rfl

/-- Appending to a chain strictly longer than the maximum priority count
fails with the range error; together with `rtnl_act_append_ok` this is
the complete behaviour of the modelled append. -/
theorem rtnl_act_append_range {α : Type} (l : List α) (x : α)
    (h : TCA_ACT_MAX_PRIORITY < l.length) :
    rtnl_act_append l x = .error .range := by
  cases l with
  | nil => simp at h
  | cons a rest =>
      rw [rtnl_act_append, tailWalkCount_eq_length]
      rw [if_pos (by simp only [List.length_cons] at h; omega)]

/-- A block whose attribute set resolves without a KIND entry fails to
decode with the missing-attribute error, whatever else it contains. -/
theorem actParseOne_missing_kind (reg : Registry) (blk : NlAttr)
    (tb2 : List (Option NlAttr))
    (h2 : nlaParse TCA_ACT_MAX noPol blk.children = .ok tb2)
    (hk : tb2.getD TCA_ACT_KIND none = none) :
    actParseOne reg blk = .error .missingAttr := by
  unfold actParseOne
  rw [h2]
  simp only [bind, Except.bind]
  rw [hk]

/-- Callback loop of the cache adapter on an always-continuing callback:
the callback runs exactly once per chain node but always receives the
same entity it was started with (the chain head). -/
theorem actCbLoop_replicates_head (headAct : ActData) (l : List ActData) :
    actCbLoop (fun _ => 0) headAct l = (0, List.replicate l.length headAct) := by
  induction l with
  | nil => rfl
  | cons x rest ih => simp [actCbLoop, ih, List.replicate]

/-- Scenario of §8: a three-entity chain with kinds "A", "B", "C" and no
options or statistics round-trips exactly. -/
theorem roundtrip_scenario_three :
    ((rtnl_act_fill emptyReg TCA_ACT_TAB
        [{ rtnl_act_alloc with kind := some "A" },
         { rtnl_act_alloc with kind := some "B" },
         { rtnl_act_alloc with kind := some "C" }]).bind
      (rtnl_act_parse emptyReg))
      = .ok [{ rtnl_act_alloc with kind := some "A" },
             { rtnl_act_alloc with kind := some "B" },
             { rtnl_act_alloc with kind := some "C" }] := rfl

/-- Scenario of §8: a statistics block carrying only BASIC with
bytes 100 and packets 5 decodes to those two counters with every other
counter zero. -/
theorem stats_basic_scenario :
    (rtnl_act_parse emptyReg (NlAttr.nest TCA_ACT_TAB
      [NlAttr.nest 1 [NlAttr.str TCA_ACT_KIND "police",
        NlAttr.nest TCA_ACT_STATS
          [NlAttr.basic TCA_STATS_BASIC { bytes := 100, packets := 5 }]]])).map
      (List.map ActData.stats)
      = .ok [{ bytes := 100, packets := 5, rate_bps := 0, rate_pps := 0
               drops := 0, overlimits := 0 }] := rfl

/-- A statistics sub-attribute shorter than its struct (here a one-byte
payload under BASIC) is a hard parse failure, not a silent skip. -/
theorem stats_short_attr_fails :
    rtnl_act_parse emptyReg (NlAttr.nest TCA_ACT_TAB
      [NlAttr.nest 1 [NlAttr.str TCA_ACT_KIND "police",
        NlAttr.nest TCA_ACT_STATS [NlAttr.blob TCA_STATS_BASIC [0]]]])
      = .error .invalidAttrSize := rfl

/-- C2: the claim says a chain already holding the maximum priority
count (32) of entities rejects a further append with the range error, so
that 33 appends against an empty chain fail at the 33rd call with the
length stuck at 32.  Evaluating the code: all 33 appends succeed (the
33rd call, on the 32-node chain `List.range 32`, returns `.ok` and grows
the chain to 33 nodes); only a 34th append fails, because the tail-walk
counter starts at 1 and is compared with a strict `>` against the
maximum, an off-by-one against the bound named by the constant. -/
theorem c2_append_off_by_one :
    (List.range 33).foldlM (fun ch i => rtnl_act_append ch i) ([] : List Nat)
      = .ok (List.range 33) ∧
    rtnl_act_append (List.range 32) 32 = .ok (List.range 33) ∧
    (List.range 32).length = TCA_ACT_MAX_PRIORITY ∧
    (List.range 33).length = 33 ∧
    rtnl_act_append (List.range 33) 33 = .error .range :=
  ⟨rfl, rfl, rfl, rfl, rfl⟩

/-- C6: the claim says every container holding a positional block that
lacks KIND fails to parse with the missing-attribute error.  Evaluating
the code: a KIND-less block at position 32 — a position the kernel emits,
`TCA_ACT_MAX_PRIO` itself — is skipped entirely because the scan loop
runs `i = 0 .. 31`, and the parse succeeds with an empty chain; the same
block at position 1 does fail as claimed. -/
theorem c6_missing_kind_index32_skipped :
    rtnl_act_parse emptyReg (NlAttr.nest TCA_ACT_TAB [NlAttr.nest 32 []]) = .ok [] ∧
    rtnl_act_parse emptyReg (NlAttr.nest TCA_ACT_TAB [NlAttr.nest 1 []])
      = .error .missingAttr :=
  ⟨rfl, rfl⟩

/-- C1: the claim says every chain of length at most 32 round-trips
through build and parse with kinds, options and order intact.
Evaluating the code at a 32-entity chain: the build emits blocks under
orders 1..32, but the parse scan stops at index 31, so the round trip
returns only the first 31 entities. -/
theorem c1_roundtrip_drops_last :
    ((rtnl_act_fill emptyReg TCA_ACT_TAB (List.replicate 32 actGact)).bind
        (rtnl_act_parse emptyReg)) = .ok (List.replicate 31 actGact) ∧
    (List.replicate 32 actGact).length = TCA_ACT_MAX_PRIORITY ∧
    (List.replicate 31 actGact).length = 31 :=
  ⟨rfl, rfl, rfl⟩

/-- C3: the claim says the cache adapter invokes the callback once per
decoded entity, passing each distinct entity in chain order.  Evaluating
the code on a two-entity message: the chain decodes to the two distinct
entities in order, and the callback is indeed invoked twice, but both
invocations receive the head entity, because the loop advances `p_act`
while passing `OBJ_CAST(act)`. -/
theorem c3_callback_gets_head_only :
    (rtnl_act_msg_parse emptyReg none msgTwoActs rtnl_act_alloc).map Prod.snd
      = .ok [actGact, actMirred] ∧
    act_msg_parser_fn emptyReg none msgTwoActs (fun _ => 0) = (0, [actGact, actGact]) ∧
    actGact.kind ≠ actMirred.kind :=
  ⟨rfl, rfl, by decide⟩

/-- C4: the claim says every entity of a parsed chain carries the
family and message-type tag of the message header and is enriched
against the link cache.  Evaluating the code on a one-entity message
with family 2 and a link cache that resolves every index: the message
type, family and resolved link are stamped onto the pre-allocated
placeholder object — the first component, which `rtnl_act_parse` has
already unhooked from the caller's pointer — while the entity of the
returned chain keeps family 0, message type 0 and no link. -/
theorem c4_header_fields_on_orphan :
    rtnl_act_msg_parse emptyReg (some fun _ => some 7) msgOneAct rtnl_act_alloc
      = .ok ({ rtnl_act_alloc with msgtype := RTM_NEWACTION, family := 2, link := some 7 },
             [actGact]) ∧
    actGact.family = 0 ∧ actGact.msgtype = 0 ∧ actGact.link = none ∧
    msgOneAct.tcaFamily = 2 ∧ msgOneAct.nlmsgType = RTM_NEWACTION :=
  ⟨rfl, rfl, rfl, rfl, rfl, rfl⟩

/-- C7: removing an entity not present in the chain — presence judged by
identity, the elements here being bare addresses, so two structurally
equal entities at different addresses stay distinct — fails with the
not-found error and performs no write; removing a present entity unlinks
it (under the well-formedness of a pointer chain, no address occurs
twice) and hands it back with its own next pointer severed, as the
singleton chain `[act]`. -/
theorem c7_remove_identity (chain : List Nat) (act : Nat) :
    (act ∉ chain → rtnl_act_remove chain act = .error .objNotfound) ∧
    (chain.Nodup → act ∈ chain →
      rtnl_act_remove chain act = .ok (chain.erase act, [act]) ∧
      act ∉ chain.erase act) := by
  constructor
  · intro hnot
    induction chain with
    | nil => rfl
    | cons a rest ih =>
        have hne : ¬ a = act := fun h => hnot (h ▸ List.mem_cons_self a rest)
        have hrest : act ∉ rest := fun hm => hnot (List.mem_cons_of_mem a hm)
        rw [rtnl_act_remove]
        simp [hne, ih hrest, Except.map]
  · intro hnd hmem
    induction chain with
    | nil => cases hmem
    | cons a rest ih =>
        rcases List.nodup_cons.mp hnd with ⟨hanr, hndr⟩
        by_cases hae : a = act
        · subst hae
          refine ⟨by rw [rtnl_act_remove]; simp [List.erase_cons_head], ?_⟩
          rw [List.erase_cons_head]
          exact hanr
        · have hmem' : act ∈ rest := by
            rcases List.mem_cons.mp hmem with h | h
            · exact absurd h.symm hae
            · exact h
          obtain ⟨h1, h2⟩ := ih hndr hmem'
          have herase : (a :: rest).erase act = a :: rest.erase act := by
            rw [List.erase_cons_tail]
            simp [hae]
          refine ⟨?_, ?_⟩
          · rw [rtnl_act_remove]
            simp [hae, h1, Except.map, herase]
          · rw [herase]
            intro hin
            rcases List.mem_cons.mp hin with h | h
            · exact hae h.symm
            · exact h2 h

/-- Witness for C7 at a concrete chain: address 5 is absent from
`[1, 2, 3]` and its removal fails; address 2 is present and is unlinked
with its next pointer severed. -/
theorem c7_remove_identity_witness :
    rtnl_act_remove [1, 2, 3] (5 : Nat) = .error .objNotfound ∧
    rtnl_act_remove [1, 2, 3] (2 : Nat) = .ok ([1, 3], [2]) := by
  constructor
  · exact (c7_remove_identity [1, 2, 3] 5).1 (by decide)
  · have h := ((c7_remove_identity [1, 2, 3] 2).2 (by decide) (by decide)).1
    exact h.trans (by rfl)

/-- C9: releasing a null chain is a no-op (no reference released, head
stays null); releasing a populated well-formed chain (distinct node
addresses) releases a reference on every node exactly once and clears
the head to null. -/
theorem c9_put_all_each_node_once (chain : List Nat) (hnd : chain.Nodup) :
    rtnl_act_put_all ([] : List Nat) = ([], []) ∧
    (rtnl_act_put_all chain).1 = chain ∧
    (∀ a ∈ chain, (rtnl_act_put_all chain).1.count a = 1) ∧
    (rtnl_act_put_all chain).2 = [] := by
  refine ⟨rfl, ?_, ?_, rfl⟩
  · simp [rtnl_act_put_all, putAllReleases_eq]
  · intro a ha
    simp only [rtnl_act_put_all, putAllReleases_eq]
    exact List.count_eq_one_of_mem hnd ha

/-- Witness for C9 at a concrete two-node chain. -/
theorem c9_put_all_each_node_once_witness :
    rtnl_act_put_all ([] : List Nat) = ([], []) ∧
    (rtnl_act_put_all [5, 9]).1.count 5 = 1 ∧
    (rtnl_act_put_all [5, 9]).2 = [] := by
  obtain ⟨h0, _, hcount, hclear⟩ := c9_put_all_each_node_once [5, 9] (by decide)
  exact ⟨h0, hcount 5 (by decide), hclear⟩

/-- C8: the change request is the add request built with the replace
flag or-ed into the caller's flags, and nothing else differs; the delete
request carries the delete message type with the caller's flags passed
through untouched — in particular delete never implies replace, while
change always carries it. -/
theorem c8_change_replace_delete_passthrough (reg : Registry) (chain : List ActData)
    (flags : Nat) :
    rtnl_act_build_change_request reg chain flags
      = rtnl_act_build_add_request reg chain (NLM_F_REPLACE ||| flags) ∧
    (rtnl_act_build_delete_request reg chain flags).map
        (fun m => (m.nlmsgType, m.nlmsgFlags))
      = (rtnl_act_build_add_request reg chain flags).map
        (fun _ => (RTM_DELACTION, flags)) ∧
    (rtnl_act_build_add_request reg chain flags).map
        (fun m => (m.nlmsgType, m.nlmsgFlags))
      = (rtnl_act_build_add_request reg chain flags).map
        (fun _ => (RTM_NEWACTION, flags)) ∧
    (rtnl_act_build_change_request reg chain flags).map
        (fun m => (m.nlmsgType, m.nlmsgFlags))
      = (rtnl_act_build_change_request reg chain flags).map
        (fun _ => (RTM_NEWACTION, NLM_F_REPLACE ||| flags)) := by
  refine ⟨rfl, ?_, ?_, ?_⟩ <;>
    · simp only [rtnl_act_build_change_request, rtnl_act_build_add_request,
        rtnl_act_build_delete_request, act_build, rtnl_act_msg_build]
      cases h : rtnl_act_fill reg TCA_ACT_TAB chain <;>
        simp [h, Except.map, bind, Except.bind, pure, Except.pure]

/-- C5: when the statistics nest of an action block carries both the
legacy 32-bit and the 64-bit rate estimate, the decoded entity's
rate-bps and rate-pps counters equal the 64-bit values; the 32-bit
values are never written.  Stated over the loop body of
`rtnl_act_parse` for the block, for any registry (a kind codec only
writes the kind-specific payload, never the statistics table) and
whatever else the block or its statistics nest contains. -/
theorem c5_rate_est64_wins (reg : Registry) (blk stAttr kindAttr : NlAttr)
    (tb2 tb3 : List (Option NlAttr))
    (t64 : Nat) (v64 : GnetStatsRateEst64) (t32 : Nat) (v32 : GnetStatsRateEst)
    (h2 : nlaParse TCA_ACT_MAX noPol blk.children = .ok tb2)
    (hk : tb2.getD TCA_ACT_KIND none = some kindAttr)
    (hst : tb2.getD TCA_ACT_STATS none = some stAttr)
    (h3 : nlaParse TCA_STATS_MAX tc_act_stats_policy stAttr.children = .ok tb3)
    (h64 : tb3.getD TCA_STATS_RATE_EST64 none = some (NlAttr.rateEst64 t64 v64))
    (_h32 : tb3.getD TCA_STATS_RATE_EST none = some (NlAttr.rateEst t32 v32)) :
    ∀ act, actParseOne reg blk = .ok act →
      act.stats.rate_bps = v64.bps ∧ act.stats.rate_pps = v64.pps := by
  intro act hact
  unfold actParseOne at hact
  simp only [h2, bind, Except.bind, hk, hst, h3, h64, NlAttr.rateEst64Data] at hact
  rcases hO : tb2.getD TCA_ACT_OPTIONS none with _ | o
  all_goals rcases hB : tb3.getD TCA_STATS_BASIC none with _ | bs
  all_goals rcases hQ : tb3.getD TCA_STATS_QUEUE none with _ | q
  all_goals simp only [hO, hB, hQ, pure, Except.pure] at hact
  all_goals repeat' split at hact
  all_goals first
    | (injection hact with h; subst h; exact ⟨rfl, rfl⟩)
    | cases hact

/-- Witness for C5 at a concrete block: kind "police", 32-bit rate
estimate (1, 2) and 64-bit rate estimate (3, 4) both present; the
decoded rates are the 64-bit pair. -/
theorem c5_rate_est64_wins_witness :
    (actParseOne emptyReg blkBothRates).map
      (fun a => (a.stats.rate_bps, a.stats.rate_pps)) = .ok (3, 4) := by
  have h := c5_rate_est64_wins emptyReg blkBothRates
      (NlAttr.nest TCA_ACT_STATS
        [NlAttr.rateEst TCA_STATS_RATE_EST { bps := 1, pps := 2 },
         NlAttr.rateEst64 TCA_STATS_RATE_EST64 { bps := 3, pps := 4 }])
      (NlAttr.str TCA_ACT_KIND "police")
      [none, some (NlAttr.str TCA_ACT_KIND "police"), none, none,
       some (NlAttr.nest TCA_ACT_STATS
        [NlAttr.rateEst TCA_STATS_RATE_EST { bps := 1, pps := 2 },
         NlAttr.rateEst64 TCA_STATS_RATE_EST64 { bps := 3, pps := 4 }]), none, none]
      [none, none, some (NlAttr.rateEst TCA_STATS_RATE_EST { bps := 1, pps := 2 }),
       none, none, some (NlAttr.rateEst64 TCA_STATS_RATE_EST64 { bps := 3, pps := 4 })]
      TCA_STATS_RATE_EST64 { bps := 3, pps := 4 }
      TCA_STATS_RATE_EST { bps := 1, pps := 2 }
      rfl rfl rfl rfl rfl rfl
  have hres : actParseOne emptyReg blkBothRates
      = .ok { rtnl_act_alloc with
                kind := some "police"
                stats := { bytes := 0, packets := 0, rate_bps := 3, rate_pps := 4
                           drops := 0, overlimits := 0 } } := rfl
  obtain ⟨hb, hp⟩ := h _ hres
  rw [hres, Except.map]

/-- C10: the successor accessor is total, including on the null chain:
null in, null out, and on a non-null entity it returns the entity's next
link; consequently iterating it from any chain walks the chain and is
absorbed at null. -/
theorem c10_next_total_null_safe :
    rtnl_act_next ([] : List ActData) = [] ∧
    (∀ (a : ActData) (rest : List ActData), rtnl_act_next (a :: rest) = rest) ∧
    (∀ (chain : List ActData) (n : Nat), rtnl_act_next^[n] chain = chain.drop n) := by
  refine ⟨rfl, fun _ _ => rfl, ?_⟩
  intro chain n
  induction n generalizing chain with
  | zero => simp
  | succ k ih =>
      rw [Function.iterate_succ_apply, ih (rtnl_act_next chain)]
      cases chain <;> simp [rtnl_act_next]

end LibnlAct
